import Mathlib

/-!
Verification of the report-generation pipeline of `generate_report.py`
(`get_data` / `analyze_data` / `create_report`).

Modelling conventions:
* Numeric `avg` values are embedded as exact rationals (`ℚ`); the source
  uses IEEE doubles, which we idealise as exact arithmetic.
* Dates are embedded as natural numbers `yyyy * 10000 + mm * 100 + dd`,
  whose order agrees with calendar order.
* `pandas.DataFrame` objects appear as `List Row` (the canonical table),
  `List CatRow` (the per-category summary) or `DFrame` (a generic
  column-named frame, used for the report renderer).
* `Series.sort_values` / `DataFrame.sort_values` are embedded as stable
  sorts (`List.insertionSort` with a reflexive relation).  numpy's
  introsort is stable exactly on its insertion-sort regime (arrays of at
  most 16 elements); for a descending sort, pandas `nargsort` reverses the
  array before and the indexer after an ascending argsort, which again
  keeps equal keys in their original relative order.  The one place where
  the unstable regime of the source's default `kind='quicksort'` is
  observable is discussed with the loader sort below.
* `pd.to_datetime` runs with its default `errors='raise'`: a month string
  it cannot parse aborts the load.  Strings that pandas maps to `NaT`
  (missing-value spellings) are not modelled; the model parser accepts
  `YYYY-MM-DD` and rejects everything else, which is faithful on the
  inputs considered here.
-/

/-- Python `str.strip` on a list of characters: drop whitespace at both ends. -/
def stripChars (cs : List Char) : List Char :=
  ((cs.dropWhile Char.isWhitespace).reverse.dropWhile Char.isWhitespace).reverse

/-- Python `str.strip` (ASCII whitespace). -/
def pyStrip (s : String) : String := ⟨stripChars s.data⟩

/-- Python `str.lower` (ASCII). -/
def pyLower (s : String) : String := ⟨s.data.map Char.toLower⟩

/-- One step of Python `str.title`: uppercase a letter that follows a
non-letter, lowercase any other letter (ASCII approximation). -/
def titleStep (p : List Char × Bool) (c : Char) : List Char × Bool :=
  if c.isAlpha then
    ((if p.2 then c.toLower else c.toUpper) :: p.1, true)
  else
    (c :: p.1, false)

/-- Python `str.title` (ASCII approximation), used by the loader on `state`. -/
def pyTitle (s : String) : String := ⟨((s.data.foldl titleStep ([], false)).1).reverse⟩

/-- The `Series.replace({'s - urban': 's-urban'})` step of the loader:
a dict replace matches whole cell values, not substrings. -/
def replaceAlias (s : String) : String := if s = "s - urban" then "s-urban" else s

/-- The composed `pop_group` cleaning step of `get_data`:
`.str.strip().str.lower().replace({'s - urban': 's-urban'})`. -/
def normPopGroup (s : String) : String := replaceAlias (pyLower (pyStrip s))

/-- Split a character list at a separator character. -/
def splitOnChar (sep : Char) (cs : List Char) : List (List Char) :=
  match cs with
  | [] => [[]]
  | c :: rest =>
    let r := splitOnChar sep rest
    if c = sep then [] :: r
    else match r with
      | [] => [[c]]
      | g :: gs => (c :: g) :: gs

/-- Numeric value of a list of decimal digit characters. -/
def digitsVal (cs : List Char) : ℕ :=
  cs.foldl (fun a c => a * 10 + (c.toNat - '0'.toNat)) 0

/-- All characters are decimal digits. -/
def allDigits (cs : List Char) : Bool := cs.all Char.isDigit

/-- Model of `pd.to_datetime` on one string cell: parse `YYYY-MM-DD` into
the encoding `yyyy*10000 + mm*100 + dd`; `none` stands for a string the
parser rejects (on which `to_datetime(errors='raise')` raises). -/
def parseMonth (s : String) : Option ℕ :=
  match splitOnChar '-' s.data with
  | [y, m, d] =>
    if y.length = 4 && m.length = 2 && d.length = 2 &&
       allDigits y && allDigits m && allDigits d &&
       decide (1 ≤ digitsVal m) && decide (digitsVal m ≤ 12) &&
       decide (1 ≤ digitsVal d) && decide (digitsVal d ≤ 31) then
      some (digitsVal y * 10000 + digitsVal m * 100 + digitsVal d)
    else none
  | _ => none

/-- Model of `pd.to_numeric(errors='coerce')` on one string cell: an
optionally signed decimal literal; anything else becomes missing (`none`). -/
def parseNumeric (s : String) : Option ℚ :=
  let signed : ℚ × List Char :=
    match s.data with
    | '-' :: rest => (-1, rest)
    | '+' :: rest => (1, rest)
    | cs => (1, cs)
  match splitOnChar '.' signed.2 with
  | [a] =>
    if a ≠ [] && allDigits a then some (signed.1 * digitsVal a) else none
  | [a, b] =>
    if (a ≠ [] || b ≠ []) && allDigits a && allDigits b then
      some (signed.1 * ((digitsVal a * 10 ^ b.length + digitsVal b : ℕ) / (10 ^ b.length : ℕ) : ℚ))
    else none
  | _ => none

/-- A canonical row of the table built by `get_data`:
`(state, month, pop_group, avg)`. -/
structure Row where
  state : String
  month : ℕ
  pop_group : String
  avg : ℚ
deriving DecidableEq, Repr

/-- The sort key of the loader's final `sort_values(by='month')`. -/
def monthLe (a b : Row) : Prop := a.month ≤ b.month

instance : DecidableRel monthLe := fun a b => inferInstanceAs (Decidable (a.month ≤ b.month))

instance : IsTotal Row monthLe := ⟨fun a b => Nat.le_total a.month b.month⟩

instance : IsTrans Row monthLe := ⟨fun _ _ _ h1 h2 => Nat.le_trans h1 h2⟩

instance : IsRefl Row monthLe := ⟨fun a => Nat.le_refl a.month⟩

/-- The loader's `df.sort_values(by='month')`, as a stable sort. -/
def sortByMonth (l : List Row) : List Row := List.insertionSort monthLe l

/-- A raw record as fetched from the store, before cleaning. -/
structure RawRow where
  state : String
  month : String
  pop_group : String
  avg : String
deriving DecidableEq, Repr

/-- Model of `pd.to_datetime(df['month'])` over the whole column with the
default `errors='raise'`: the first unparsable cell aborts with an error. -/
def toDatetimeCol : List String → Except Unit (List ℕ)
  | [] => .ok []
  | s :: rest =>
    match parseMonth s with
    | none => .error ()
    | some d =>
      match toDatetimeCol rest with
      | .error e => .error e
      | .ok ds => .ok (d :: ds)

/-- Model of `get_data` after the query: parse the month column (raising on
an unparsable date), normalise `state` and `pop_group`, coerce `avg`
(failures become missing), drop rows with a missing field, and sort by
month. -/
def getData (raws : List RawRow) : Except Unit (List Row) :=
  match toDatetimeCol (raws.map (·.month)) with
  | .error e => .error e
  | .ok months =>
    .ok (sortByMonth ((months.zip raws).filterMap (fun p =>
      match parseNumeric p.2.avg with
      | some q => some ⟨pyTitle (pyStrip p.2.state), p.1, normPopGroup p.2.pop_group, q⟩
      | none => none)))

/-- Arithmetic mean of a list of rationals (`Series.mean`); the empty
list gives `0/0 = 0`, which is never relied upon below. -/
def meanQ (xs : List ℚ) : ℚ := xs.sum / xs.length

/-- `Series.min` on a nonempty numeric column (default `0` on empty). -/
def minQ : List ℚ → ℚ
  | [] => 0
  | x :: xs => xs.foldl min x

/-- `Series.max` on a nonempty numeric column (default `0` on empty). -/
def maxQ : List ℚ → ℚ
  | [] => 0
  | x :: xs => xs.foldl max x

/-- `Series.min` on the month column (default `0` on empty). -/
def natMinD : List ℕ → ℕ
  | [] => 0
  | x :: xs => xs.foldl min x

/-- `Series.max` on the month column (default `0` on empty). -/
def natMaxD : List ℕ → ℕ
  | [] => 0
  | x :: xs => xs.foldl max x

/-- `df['month'].min()`. -/
def monthMin (df : List Row) : ℕ := natMinD (df.map (·.month))

/-- `df['month'].max()`. -/
def monthMax (df : List Row) : ℕ := natMaxD (df.map (·.month))

/-- `df.loc[df['avg'].idxmax()]`: `idxmax` returns the index of the first
occurrence of the maximum, so the peak row is the first row of the table
attaining the maximal `avg`. -/
def peakPerformance (df : List Row) : Option Row := List.argmax (fun r => r.avg) df

/-- Mean of `avg` over the rows of the first (minimal) month:
`df[df['month'] == df['month'].min()]['avg'].mean()`. -/
def firstMonthAvg (df : List Row) : ℚ :=
  meanQ ((df.filter (fun r => r.month == monthMin df)).map (·.avg))

/-- Mean of `avg` over the rows of the last (maximal) month. -/
def lastMonthAvg (df : List Row) : ℚ :=
  meanQ ((df.filter (fun r => r.month == monthMax df)).map (·.avg))

/-- `insights['overall_growth']`: the conditional expression
`((last - first) / first) * 100 if first_month_avg else 0`; a zero (falsy)
first-month mean short-circuits to `0`. -/
def overallGrowth (df : List Row) : ℚ :=
  if firstMonthAvg df = 0 then 0
  else ((lastMonthAvg df - firstMonthAvg df) / firstMonthAvg df) * 100

/-- One row of the per-category summary
`df.groupby('pop_group')['avg'].agg(['mean','min','max','std'])`.
The `std` column (sample standard deviation, `ddof=1`) is carried as its
square `svar` (the sample variance, an exact rational); `none` stands for
the `NaN` a single-observation category produces.  The actual standard
deviation is recovered by `stdEntry` below. -/
structure CatRow where
  label : String
  mean : ℚ
  minv : ℚ
  maxv : ℚ
  svar : Option ℚ
deriving DecidableEq, Repr

/-- Sample variance with `ddof=1` (pandas `Series.std` squared):
`NaN` (`none`) when fewer than two observations. -/
def svarQ (xs : List ℚ) : Option ℚ :=
  if xs.length < 2 then none
  else some ((xs.map (fun x => (x - meanQ xs) ^ 2)).sum / ((xs.length : ℚ) - 1))

/-- The `std` cell of a summary row, as pandas computes it:
the square root of the sample variance, `none` for `NaN`. -/
noncomputable def stdEntry (cr : CatRow) : Option ℝ :=
  cr.svar.map (fun q => Real.sqrt (q : ℝ))

/-- The `avg` values of one `pop_group` category, in table order. -/
def catVals (df : List Row) (g : String) : List ℚ :=
  (df.filter (fun r => r.pop_group == g)).map (·.avg)

/-- The distinct `pop_group` labels sorted ascending: `groupby` with its
default `sort=True` produces the group keys in ascending order. -/
def popLabels (df : List Row) : List String :=
  List.insertionSort (· ≤ ·) ((df.map (·.pop_group)).dedup)

/-- The aggregation row of one category. -/
def mkCatRow (df : List Row) (g : String) : CatRow :=
  ⟨g, meanQ (catVals df g), minQ (catVals df g), maxQ (catVals df g), svarQ (catVals df g)⟩

/-- Descending order on the `Mean Avg` column, the key of
`pop_group_analysis.sort_values(by='Mean Avg', ascending=False)`. -/
def meanGe (a b : CatRow) : Prop := b.mean ≤ a.mean

instance : DecidableRel meanGe := fun a b => inferInstanceAs (Decidable (b.mean ≤ a.mean))

instance : IsTotal CatRow meanGe := ⟨fun a b => le_total b.mean a.mean⟩

instance : IsTrans CatRow meanGe := ⟨fun _ _ _ h1 h2 => le_trans h2 h1⟩

/-- `insights['pop_group_table']`: group by `pop_group` (keys ascending),
aggregate, then sort by mean descending; ties keep their previous relative
order (see the module comment on `sort_values`). -/
def popGroupTable (df : List Row) : List CatRow :=
  List.insertionSort meanGe ((popLabels df).map (mkCatRow df))

/-- `df['state'].value_counts()[s]`: the number of observations of a state. -/
def countState (df : List Row) (s : String) : ℕ :=
  (df.filter (fun r => r.state == s)).length

/-- `df[df['state'].isin(valid_states)]` where `valid_states` are the
states with at least two observations. -/
def validDf (df : List Row) : List Row :=
  df.filter (fun r => decide (2 ≤ countState df r.state))

/-- The rows of one state, in table order (`groupby` keeps the original
relative order inside each group). -/
def stateRows (df : List Row) (s : String) : List Row :=
  df.filter (fun r => r.state == s)

/-- The distinct state labels sorted ascending (`groupby('state')` keys). -/
def stateLabels (df : List Row) : List String :=
  List.insertionSort (· ≤ ·) ((df.map (·.state)).dedup)

/-- The per-state growth lambda of the most-improved computation:
sort the group by month, then
`((avg.iloc[-1] - avg.iloc[0]) / avg.iloc[0]) * 100`. -/
def growthOf (rows : List Row) : ℚ :=
  match sortByMonth rows with
  | [] => 0
  | r :: rs =>
    ((((r :: rs).getLast (List.cons_ne_nil r rs)).avg - r.avg) / r.avg) * 100

/-- `state_growth`: for each state of the filtered table (keys ascending),
its growth percentage. -/
def stateGrowth (df : List Row) : List (String × ℚ) :=
  (stateLabels (validDf df)).map (fun s => (s, growthOf (stateRows (validDf df) s)))

/-- `insights['most_improved_state']`: the first row attaining the maximal
growth (`nlargest(1, 'growth').iloc[0]`, whose default `keep='first'`
selects the earliest of tied rows); the sentinel `('N/A', 0)` when no state
has at least two observations (then the filtered table, hence the growth
table, is empty). -/
def mostImprovedState (df : List Row) : String × ℚ :=
  match List.argmax (fun p => p.2) (stateGrowth df) with
  | some p => p
  | none => ("N/A", 0)

/-- A cell value of a rendered frame: the column types occurring in the
report (strings, dates, floats, integers). -/
inductive Cell where
  | str (s : String)
  | date (d : ℕ)
  | num (q : ℚ)
  | intc (z : ℤ)
deriving DecidableEq, Repr

/-- The cells of one canonical row, in column order. -/
def rowCells (r : Row) : List Cell :=
  [Cell.str r.state, Cell.date r.month, Cell.str r.pop_group, Cell.num r.avg]

/-- The canonical table as a (column names, row cells) frame, the state in
which `get_data` hands it to the caller. -/
def tableFrame (df : List Row) : List String × List (List Cell) :=
  (["state", "month", "pop_group", "avg"], df.map rowCells)

/-- `df['month'].dt.year` on the encoded month. -/
def yearOf (m : ℕ) : ℤ := (m / 10000 : ℕ)

/-- The state of the caller's dataframe after `analyze_data` returns:
the statement `df['year'] = df['month'].dt.year` has added a `year`
column in place. -/
def analyzeFinalFrame (df : List Row) : List String × List (List Cell) :=
  (["state", "month", "pop_group", "avg", "year"],
   df.map (fun r => rowCells r ++ [Cell.intc (yearOf r.month)]))

/-- Round to an integer, halves to even: the rounding used by float
formatting, idealised to exact rationals. -/
def roundHalfEven (a : ℚ) : ℤ :=
  let f := Int.floor a
  let frac := a - f
  if frac < 1 / 2 then f
  else if 1 / 2 < frac then f + 1
  else if f % 2 = 0 then f else f + 1

/-- Zero-padded decimal rendering of a natural number to `k` digits. -/
def padNum (k : ℕ) (n : ℕ) : String :=
  let s := toString n
  ⟨List.replicate (k - s.length) '0' ++ s.data⟩

/-- Python `f"{x:.2f}"` on an exact rational. -/
def fmt2 (q : ℚ) : String :=
  let n := roundHalfEven (q * 100)
  let sgn := if n < 0 then "-" else ""
  let m := n.natAbs
  sgn ++ toString (m / 100) ++ "." ++ padNum 2 (m % 100)

/-- `str()` of a Timestamp cell: `YYYY-MM-DD 00:00:00`. -/
def dateStr (d : ℕ) : String :=
  padNum 4 (d / 10000) ++ "-" ++ padNum 2 (d / 100 % 100) ++ "-" ++ padNum 2 (d % 100) ++
    " 00:00:00"

/-- The text `simple_table` draws for one cell: floats are formatted to
two decimal places, everything else with `str()`. -/
def cellText : Cell → String
  | .str s => s
  | .num q => fmt2 q
  | .date d => dateStr d
  | .intc z => toString z

/-- A generic column-named frame as handed to the renderer. -/
structure DFrame where
  cols : List String
  rows : List (List Cell)
deriving DecidableEq, Repr

/-- One drawing primitive issued to the rendering surface (the `FPDF`
methods the report code calls). -/
inductive Op where
  | cellOp (w h : ℚ) (border ln : ℕ) (txt : String)
  | lnOp (h : ℚ)
  | multiCellOp (w h : ℚ) (txt : String)
  | setFontOp (family style : String) (size : ℚ)
  | fillColorOp (r g b : ℕ)
deriving DecidableEq, Repr

/-- `FPDF` A4 page width in millimetres. -/
def pageW : ℚ := 210

/-- `FPDF` default left margin in millimetres. -/
def lMargin : ℚ := 10

/-- The drawing trace of `PDF.simple_table`: an empty frame (`df.empty`,
that is, no rows or no columns) draws the single placeholder cell;
otherwise a bold header row of the column names followed by one row of
cells per data row, each cell `page_width / len(df.columns)` wide. -/
def simpleTable (d : DFrame) : List Op :=
  if d.rows.isEmpty || d.cols.isEmpty then
    [Op.cellOp 0 10 0 1 "No data available for this section."]
  else
    let cw := (pageW - 2 * lMargin) / (d.cols.length : ℚ)
    [Op.setFontOp "Arial" "B" 9] ++ d.cols.map (fun c => Op.cellOp cw 7 1 0 c) ++ [Op.lnOp 0] ++
    [Op.setFontOp "Arial" "" 9] ++
    d.rows.flatMap (fun row => row.map (fun c => Op.cellOp cw 6 1 0 (cellText c)) ++ [Op.lnOp 0])

/-- The insights bundle as consumed by `create_report`. -/
structure RenderInsights where
  date_range : String
  overall_avg : ℚ
  peak_value : ℚ
  peak_details : String
  overall_growth : ℚ
  mi_state : String
  mi_growth : ℚ
  pop_group_df : DFrame
  top5_df : DFrame
  bottom5_df : DFrame

/-- The drawing trace of `PDF.chapter_title`. -/
def chapterTitleOps (t : String) : List Op :=
  [Op.setFontOp "Arial" "B" 12, Op.fillColorOp 230 230 230, Op.cellOp 0 6 0 1 t, Op.lnOp 4]

/-- The drawing trace of `PDF.kpi_box`. -/
def kpiBoxOps (label value desc : String) : List Op :=
  [Op.setFontOp "Arial" "" 10, Op.cellOp 50 6 1 0 label,
   Op.setFontOp "Arial" "B" 10, Op.cellOp 0 6 1 1 value,
   Op.setFontOp "Arial" "I" 9, Op.multiCellOp 0 5 ("  (" ++ desc ++ ")"), Op.lnOp 2]

/-- The executive-summary section of `create_report`. -/
def execSummaryOps (ins : RenderInsights) : List Op :=
  chapterTitleOps "Executive Summary" ++
  kpiBoxOps "Data Range Analyzed" ins.date_range
    "The start and end dates of the data included." ++
  kpiBoxOps "Overall Average `avg`" (fmt2 ins.overall_avg)
    "The mean `avg` across all states, pop groups, and months." ++
  kpiBoxOps "Peak Performance" (fmt2 ins.peak_value)
    ("Achieved by " ++ ins.peak_details ++ ".") ++
  kpiBoxOps "Overall Growth" (fmt2 ins.overall_growth ++ "%")
    "Percentage change in avg `avg` from the first to the last month." ++
  kpiBoxOps "Most Improved State" (ins.mi_state ++ " (" ++ fmt2 ins.mi_growth ++ "%)")
    "State with the highest percentage growth over the entire period." ++
  [Op.lnOp 10]

/-- The ops of the POP-group section up to (not including) its table. -/
def popSectionPre : List Op :=
  chapterTitleOps "Performance by POP Group" ++
  [Op.setFontOp "Arial" "" 10,
   Op.multiCellOp 0 5 "This section details the performance metrics for each population group, highlighting average performance and volatility.",
   Op.lnOp 5]

/-- The state-level section of `create_report`. -/
def stateSectionOps (ins : RenderInsights) : List Op :=
  chapterTitleOps "Performance by State" ++
  [Op.setFontOp "Arial" "" 10,
   Op.multiCellOp 0 5 "The following tables rank states by their average `avg` to identify top performers and areas for potential improvement.",
   Op.lnOp 5,
   Op.setFontOp "Arial" "B" 10, Op.cellOp 0 5 0 1 "Top 5 Performing States"] ++
  simpleTable ins.top5_df ++
  [Op.lnOp 5,
   Op.setFontOp "Arial" "B" 10, Op.cellOp 0 5 0 1 "Bottom 5 Performing States"] ++
  simpleTable ins.bottom5_df ++ [Op.lnOp 5]

/-- The body drawing trace of `create_report` (page header/footer callbacks
are the rendering surface's own concern and are not traced). -/
def createReportOps (ins : RenderInsights) : List Op :=
  execSummaryOps ins ++ popSectionPre ++ simpleTable ins.pop_group_df ++ [Op.lnOp 10] ++
  stateSectionOps ins

/-- The number of observations of one `pop_group` category. -/
def countCat (df : List Row) (g : String) : ℕ :=
  (df.filter (fun r => r.pop_group == g)).length

/-! ### Concrete fixtures used by the witness theorems -/

/-- The three-row fixture of the spec's end-to-end scenario. -/
def dfFix : List Row :=
  [⟨"California", 20240101, "urban", 10⟩, ⟨"California", 20240201, "urban", 20⟩,
   ⟨"Texas", 20240101, "rural", 5⟩]

/-- A fixture whose first-month mean is zero. -/
def dfZeroFirst : List Row :=
  [⟨"Texas", 20240101, "rural", 0⟩, ⟨"Texas", 20240201, "rural", 5⟩]

/-- A fixture with two rows tied at the maximal `avg`. -/
def dfTie : List Row :=
  [⟨"Alpha", 20240101, "urban", 7⟩, ⟨"Beta", 20240101, "rural", 7⟩]

/-- Raw rows whose second month string is not a date. -/
def rawsBad : List RawRow :=
  [⟨"ca", "2024-01-01", "Urban", "10.0"⟩, ⟨"tx", "not-a-date", "Rural", "5"⟩]

/-- An insights bundle whose per-category frame has no rows. -/
def insEmptyCat : RenderInsights :=
  ⟨"Jan 2024 to Feb 2024", 10, 20, "Urban in California (Feb 2024)", 100, "California", 100,
   ⟨["POP Group", "Mean Avg", "Min Avg", "Max Avg", "Volatility (Std Dev)"], []⟩,
   ⟨["State", "Mean Avg", "Record Count"], [[Cell.str "California", Cell.num 15, Cell.intc 2]]⟩,
   ⟨["State", "Mean Avg", "Record Count"], [[Cell.str "Texas", Cell.num 5, Cell.intc 1]]⟩⟩

/-! ### Helper lemmas -/

/-- Inserting into a sorted list preserves a pairwise relation `S`, provided
`S b a` holds whenever the sort relation `r a b` fails (so only equal-key
pairs are constrained by `S`), for an element originally ordered after the
whole list.  This is the stability of `orderedInsert`. -/
theorem pairwiseOrderedInsert {α : Type _} {r : α → α → Prop} [DecidableRel r]
    {S : α → α → Prop} (vac : ∀ a b, ¬r a b → S b a) {x : α} :
    ∀ {l : List α}, l.Pairwise S → (∀ y ∈ l, S x y) → (l.orderedInsert r x).Pairwise S
  | [], _, _ => by simp
  | b :: t, hp, hx => by
    rw [List.orderedInsert]
    by_cases h : r x b
    · rw [if_pos h]
      exact List.Pairwise.cons hx hp
    · rw [if_neg h]
      refine List.Pairwise.cons ?_
        (pairwiseOrderedInsert vac hp.of_cons
          (fun y hy => hx y (List.mem_cons_of_mem _ hy)))
      intro y hy
      rcases (List.mem_orderedInsert r).1 hy with rfl | hyt
      · exact vac _ b h
      · exact (List.pairwise_cons.1 hp).1 y hyt

/-- Stability of `insertionSort`: a pairwise relation that only constrains
pairs on which the sort relation holds both ways survives the sort. -/
theorem pairwiseInsertionSort {α : Type _} {r : α → α → Prop} [DecidableRel r]
    {S : α → α → Prop} (vac : ∀ a b, ¬r a b → S b a) :
    ∀ {l : List α}, l.Pairwise S → (List.insertionSort r l).Pairwise S
  | [], _ => by simp
  | a :: t, hp => by
    rw [List.insertionSort]
    refine pairwiseOrderedInsert vac (pairwiseInsertionSort vac hp.of_cons) ?_
    intro y hy
    exact (List.pairwise_cons.1 hp).1 y ((List.mem_insertionSort r).1 hy)

/-- In a pairwise-related list the last element is related from every
member (for a reflexive relation). -/
theorem pairwiseRelGetLast {α : Type _} {R : α → α → Prop} (hrefl : ∀ a, R a a) :
    ∀ {l : List α} (hne : l ≠ []), l.Pairwise R → ∀ x ∈ l, R x (l.getLast hne)
  | [], hne, _, _, _ => absurd rfl hne
  | [a], _, _, x, hx => by
    have hxa : x = a := by simpa using hx
    subst hxa
    simpa using hrefl _
  | a :: b :: t, _, hp, x, hx => by
    rw [List.getLast_cons (List.cons_ne_nil b t)]
    rcases List.mem_cons.1 hx with rfl | hx'
    · exact (List.pairwise_cons.1 hp).1 _ (List.getLast_mem (List.cons_ne_nil b t))
    · exact pairwiseRelGetLast hrefl (List.cons_ne_nil b t) hp.of_cons x hx'

/-- A `Nat.min` fold is bounded by its initial value. -/
theorem foldlNatMin_le_init : ∀ (l : List ℕ) (a : ℕ), l.foldl min a ≤ a
  | [], _ => le_refl _
  | x :: xs, a => le_trans (foldlNatMin_le_init xs (min a x)) (min_le_left a x)

/-- A `Nat.min` fold is bounded by every member. -/
theorem foldlNatMin_le_mem : ∀ (l : List ℕ) (a x : ℕ), x ∈ l → l.foldl min a ≤ x
  | [], _, _, hx => absurd hx (List.not_mem_nil _)
  | y :: xs, a, x, hx => by
    rcases List.mem_cons.1 hx with rfl | hx'
    · exact le_trans (foldlNatMin_le_init xs _) (min_le_right a x)
    · exact foldlNatMin_le_mem xs _ x hx'

/-- A `Nat.min` fold returns its initial value or a member. -/
theorem foldlNatMin_mem : ∀ (l : List ℕ) (a : ℕ), l.foldl min a = a ∨ l.foldl min a ∈ l
  | [], _ => Or.inl rfl
  | x :: xs, a => by
    rcases foldlNatMin_mem xs (min a x) with h | h
    · rw [List.foldl_cons, h]
      rcases Nat.le_total a x with hax | hxa
      · left; omega
      · right
        have hx : min a x = x := by omega
        rw [hx]; exact List.mem_cons_self x xs
    · right; exact List.mem_cons_of_mem x h

/-- An initial value bounds a `Nat.max` fold from below. -/
theorem foldlNatMax_init_le : ∀ (l : List ℕ) (a : ℕ), a ≤ l.foldl max a
  | [], _ => le_refl _
  | x :: xs, a => le_trans (le_max_left a x) (foldlNatMax_init_le xs (max a x))

/-- Every member bounds a `Nat.max` fold from below. -/
theorem foldlNatMax_mem_le : ∀ (l : List ℕ) (a x : ℕ), x ∈ l → x ≤ l.foldl max a
  | [], _, _, hx => absurd hx (List.not_mem_nil _)
  | y :: xs, a, x, hx => by
    rcases List.mem_cons.1 hx with rfl | hx'
    · exact le_trans (le_max_right a x) (foldlNatMax_init_le xs _)
    · exact foldlNatMax_mem_le xs _ x hx'

/-- A `Nat.max` fold returns its initial value or a member. -/
theorem foldlNatMax_mem : ∀ (l : List ℕ) (a : ℕ), l.foldl max a = a ∨ l.foldl max a ∈ l
  | [], _ => Or.inl rfl
  | x :: xs, a => by
    rcases foldlNatMax_mem xs (max a x) with h | h
    · rw [List.foldl_cons, h]
      rcases Nat.le_total x a with hxa | hax
      · left; omega
      · right
        have hx : max a x = x := by omega
        rw [hx]; exact List.mem_cons_self x xs
    · right; exact List.mem_cons_of_mem x h

/-- `natMinD` is a lower bound of a list's members. -/
theorem natMinD_le_mem {l : List ℕ} {x : ℕ} (hx : x ∈ l) : natMinD l ≤ x := by
  cases l with
  | nil => cases hx
  | cons y ys =>
    rcases List.mem_cons.1 hx with rfl | hx'
    · exact foldlNatMin_le_init ys x
    · exact foldlNatMin_le_mem ys y x hx'

/-- `natMinD` of a nonempty list is a member. -/
theorem natMinD_mem {l : List ℕ} (h : l ≠ []) : natMinD l ∈ l := by
  cases l with
  | nil => cases h rfl
  | cons y ys =>
    rcases foldlNatMin_mem ys y with h' | h'
    · rw [natMinD, h']; exact List.mem_cons_self y ys
    · rw [natMinD]; exact List.mem_cons_of_mem y h'

/-- Members bound `natMaxD` from below. -/
theorem mem_le_natMaxD {l : List ℕ} {x : ℕ} (hx : x ∈ l) : x ≤ natMaxD l := by
  cases l with
  | nil => cases hx
  | cons y ys =>
    rcases List.mem_cons.1 hx with rfl | hx'
    · exact foldlNatMax_init_le ys x
    · exact foldlNatMax_mem_le ys y x hx'

/-- `natMaxD` of a nonempty list is a member. -/
theorem natMaxD_mem {l : List ℕ} (h : l ≠ []) : natMaxD l ∈ l := by
  cases l with
  | nil => cases h rfl
  | cons y ys =>
    rcases foldlNatMax_mem ys y with h' | h'
    · rw [natMaxD, h']; exact List.mem_cons_self y ys
    · rw [natMaxD]; exact List.mem_cons_of_mem y h'

/-- `monthMin` bounds every month of the table from below. -/
theorem monthMin_le {df : List Row} {r : Row} (hr : r ∈ df) : monthMin df ≤ r.month :=
  natMinD_le_mem (List.mem_map_of_mem (·.month) hr)

/-- `monthMin` of a nonempty table is one of its months. -/
theorem monthMin_mem {df : List Row} (h : df ≠ []) : ∃ r ∈ df, r.month = monthMin df := by
  have hmem : natMinD (df.map (·.month)) ∈ df.map (·.month) :=
    natMinD_mem (by simpa using h)
  rcases List.mem_map.1 hmem with ⟨r, hr, hrm⟩
  exact ⟨r, hr, hrm⟩

/-- Every month of the table bounds `monthMax` from below. -/
theorem le_monthMax {df : List Row} {r : Row} (hr : r ∈ df) : r.month ≤ monthMax df :=
  mem_le_natMaxD (List.mem_map_of_mem (·.month) hr)

/-- `monthMax` of a nonempty table is one of its months. -/
theorem monthMax_mem {df : List Row} (h : df ≠ []) : ∃ r ∈ df, r.month = monthMax df := by
  have hmem : natMaxD (df.map (·.month)) ∈ df.map (·.month) :=
    natMaxD_mem (by simpa using h)
  rcases List.mem_map.1 hmem with ⟨r, hr, hrm⟩
  exact ⟨r, hr, hrm⟩

/-! ### Claim theorems -/

/-- Claim C7: category normalization sends every string whose trimmed
lowercase form is `"s - urban"` (any casing/leading-or-trailing-spacing
variant of the raw label) to the canonical `"s-urban"`, and every other
label to its trimmed lowercase form (in particular the already-canonical
`"s-urban"` is kept); the three spec examples `"S - Urban"`, `"s-urban"`
and `" s - urban "` all normalize to `"s-urban"`. -/
theorem C7_category_normalization :
    (∀ s : String, pyLower (pyStrip s) = "s - urban" → normPopGroup s = "s-urban") ∧
    (∀ s : String, pyLower (pyStrip s) ≠ "s - urban" → normPopGroup s = pyLower (pyStrip s)) ∧
    normPopGroup "S - Urban" = "s-urban" ∧ normPopGroup "s-urban" = "s-urban" ∧
    normPopGroup " s - urban " = "s-urban" := by
  refine ⟨?_, ?_, by decide, by decide, by decide⟩
  · intro s h
    simp [normPopGroup, replaceAlias, h]
  · intro s h
    simp [normPopGroup, replaceAlias, h]

/-- Witness for C7 at the concrete label `"Rural "`. -/
theorem C7_witness : normPopGroup "Rural " = "rural" :=
  C7_category_normalization.2.1 "Rural " (by decide)

/-- Claim C2: for a nonempty canonical table, the first/last month are the
minimal/maximal months of the table, and overall growth is
`(last-month mean − first-month mean) / first-month mean × 100`, except
that a first-month mean of exactly `0` yields exactly `0` (the model is a
total function on `ℚ`: no exception, no NaN). -/
theorem C2_overall_growth (df : List Row) (hne : df ≠ []) :
    ((∃ r ∈ df, r.month = monthMin df) ∧ ∀ r ∈ df, monthMin df ≤ r.month) ∧
    ((∃ r ∈ df, r.month = monthMax df) ∧ ∀ r ∈ df, r.month ≤ monthMax df) ∧
    (firstMonthAvg df = 0 → overallGrowth df = 0) ∧
    (firstMonthAvg df ≠ 0 →
      overallGrowth df =
        ((lastMonthAvg df - firstMonthAvg df) / firstMonthAvg df) * 100) := by
  refine ⟨⟨monthMin_mem hne, fun r hr => monthMin_le hr⟩,
          ⟨monthMax_mem hne, fun r hr => le_monthMax hr⟩, ?_, ?_⟩
  · intro h
    simp [overallGrowth, h]
  · intro h
    simp [overallGrowth, h]

/-- Witness for C2 at a concrete table with a zero first-month mean. -/
theorem C2_witness : overallGrowth dfZeroFirst = 0 ∧ dfZeroFirst ≠ [] :=
  ⟨(C2_overall_growth dfZeroFirst (by decide)).2.2.1
     (by simp [firstMonthAvg, dfZeroFirst, meanQ, monthMin, natMinD, List.filter_cons,
               beq_iff_eq]),
   by decide⟩

/-- Claim C3: for a nonempty canonical table the peak-performance row is a
row whose `avg` bounds every row's `avg`, and among rows tied at the
maximum it is the earliest in table order (`idxmax` is a stable argmax). -/
theorem C3_peak_row (df : List Row) (hne : df ≠ []) :
    ∃ p, peakPerformance df = some p ∧ p ∈ df ∧ (∀ r ∈ df, r.avg ≤ p.avg) ∧
      ∀ r ∈ df, r.avg = p.avg → df.indexOf p ≤ df.indexOf r := by
  cases hp : List.argmax (fun r : Row => r.avg) df with
  | none => exact absurd (List.argmax_eq_none.1 hp) hne
  | some p =>
    have h := List.argmax_eq_some_iff.1 hp
    exact ⟨p, hp, h.1, h.2.1, fun r hr hra => h.2.2 r hr hra.ge⟩

/-- Witness for C3 at the concrete two-way tie fixture. -/
theorem C3_witness : dfTie ≠ [] ∧ ∃ p, peakPerformance dfTie = some p ∧ p ∈ dfTie ∧
    (∀ r ∈ dfTie, r.avg ≤ p.avg) ∧
    ∀ r ∈ dfTie, r.avg = p.avg → dfTie.indexOf p ≤ dfTie.indexOf r :=
  ⟨by decide, C3_peak_row dfTie (by decide)⟩

/-- Claim C9 counterexample: `analyze_data` does not consume the table
read-only — the statement `df['year'] = df['month'].dt.year` adds a `year`
column to the caller's frame in place, so at a concrete one-row table the
frame after `analyze_data` differs from the frame the loader built. -/
theorem C9_counterexample :
    analyzeFinalFrame [⟨"Texas", 20240101, "rural", 5⟩] ≠
      tableFrame [⟨"Texas", 20240101, "rural", 5⟩] := by
  decide

/-- Claim C9 amended: `analyze_data` keeps the rows, their order and the
original four columns unchanged, but appends a derived `year` column to
the caller's table in place. -/
theorem C9_amended (df : List Row) :
    (analyzeFinalFrame df).1 = (tableFrame df).1 ++ ["year"] ∧
    (analyzeFinalFrame df).2.map (fun cs => cs.take 4) = (tableFrame df).2 ∧
    (analyzeFinalFrame df).2.length = (tableFrame df).2.length := by
  refine ⟨rfl, ?_, by simp [analyzeFinalFrame, tableFrame]⟩
  simp only [analyzeFinalFrame, tableFrame, List.map_map]
  rfl

/-- Claim C10: a frame with zero rows is rendered by `simple_table` as
exactly the single placeholder cell, and it occupies the per-category
table's position in the report trace. -/
theorem C10_empty_table (ins : RenderInsights) (h : ins.pop_group_df.rows = []) :
    simpleTable ins.pop_group_df =
      [Op.cellOp 0 10 0 1 "No data available for this section."] ∧
    createReportOps ins =
      execSummaryOps ins ++ popSectionPre ++
        [Op.cellOp 0 10 0 1 "No data available for this section."] ++
        ([Op.lnOp 10] ++ stateSectionOps ins) := by
  have hempty : simpleTable ins.pop_group_df =
      [Op.cellOp 0 10 0 1 "No data available for this section."] := by
    simp [simpleTable, h]
  exact ⟨hempty, by simp [createReportOps, hempty, List.append_assoc]⟩

/-- Witness for C10 at a concrete bundle with an empty per-category frame. -/
theorem C10_witness :
    insEmptyCat.pop_group_df.rows = [] ∧
    simpleTable insEmptyCat.pop_group_df =
      [Op.cellOp 0 10 0 1 "No data available for this section."] :=
  ⟨rfl, (C10_empty_table insEmptyCat rfl).1⟩

/-- A month column containing an unparsable cell makes `to_datetime` (with
its default `errors='raise'`) fail. -/
theorem toDatetimeCol_error :
    ∀ {ms : List String}, (∃ s ∈ ms, parseMonth s = none) → toDatetimeCol ms = .error ()
  | [], h => by
    rcases h with ⟨s, hs, _⟩
    cases hs
  | s :: rest, h => by
    rcases h with ⟨s', hs', hps⟩
    rcases List.mem_cons.1 hs' with rfl | hmem
    · simp [toDatetimeCol, hps]
    · cases hp : parseMonth s with
      | none => simp [toDatetimeCol, hp]
      | some d =>
        have hrec := toDatetimeCol_error ⟨s', hmem, hps⟩
        simp [toDatetimeCol, hp, hrec]

/-- Claim C6 counterexample: a raw row whose month string is unparsable is
not dropped — the whole load fails (`pd.to_datetime` defaults to
`errors='raise'`), so `get_data` on a good row plus a bad row returns an
error instead of succeeding with the remaining row. -/
theorem C6_counterexample : getData rawsBad = Except.error () := rfl

/-- Claim C6 amended: any raw row set containing a month string the date
parser rejects makes the whole load fail with an error; unparsable-month
rows are not silently dropped. -/
theorem C6_amended (raws : List RawRow) (h : ∃ r ∈ raws, parseMonth r.month = none) :
    getData raws = Except.error () := by
  have hcol : toDatetimeCol (raws.map (·.month)) = .error () := by
    apply toDatetimeCol_error
    rcases h with ⟨r, hr, hpr⟩
    exact ⟨r.month, List.mem_map_of_mem (·.month) hr, hpr⟩
  simp [getData, hcol]

/-- Witness for C6 at the concrete raw rows with one bad month. -/
theorem C6_witness :
    getData rawsBad = Except.error () ∧ (∃ r ∈ rawsBad, parseMonth r.month = none) :=
  ⟨C6_amended rawsBad ⟨⟨"tx", "not-a-date", "Rural", "5"⟩, by decide, rfl⟩,
   ⟨⟨"tx", "not-a-date", "Rural", "5"⟩, by decide, rfl⟩⟩

/-- Every row of the per-category summary is the aggregation row of one
distinct category label. -/
theorem mem_popGroupTable {df : List Row} {cr : CatRow} (h : cr ∈ popGroupTable df) :
    ∃ g ∈ (df.map (·.pop_group)).dedup, cr = mkCatRow df g := by
  have h1 : cr ∈ (popLabels df).map (mkCatRow df) :=
    (List.mem_insertionSort meanGe).1 h
  rcases List.mem_map.1 h1 with ⟨g, hg, rfl⟩
  exact ⟨g, (List.mem_insertionSort _).1 hg, rfl⟩

/-- Claim C8: in the per-category summary the `std` entry is the sample
standard deviation (denominator `n − 1`), and a category with exactly one
observation carries the `NaN` sentinel (`none`) — in particular not the
number zero; the model is total, so no exception is possible. -/
theorem C8_sample_std (df : List Row) (cr : CatRow) (hcr : cr ∈ popGroupTable df) :
    (countCat df cr.label = 1 →
      cr.svar = none ∧ stdEntry cr = none ∧ stdEntry cr ≠ some 0) ∧
    (2 ≤ countCat df cr.label →
      ∃ v : ℚ, cr.svar = some v ∧
        ((countCat df cr.label : ℚ) - 1) * v =
          ((catVals df cr.label).map
            (fun x => (x - meanQ (catVals df cr.label)) ^ 2)).sum ∧
        stdEntry cr = some (Real.sqrt (v : ℝ))) := by
  rcases mem_popGroupTable hcr with ⟨g, hg, rfl⟩
  have hlab : (mkCatRow df g).label = g := rfl
  have hlen : (catVals df g).length = countCat df g := by
    simp [catVals, countCat]
  constructor
  · intro h1
    rw [hlab] at h1
    have hone : (catVals df g).length < 2 := by omega
    have hsv : (mkCatRow df g).svar = none := by
      simp only [mkCatRow, svarQ, if_pos hone]
    exact ⟨hsv, by simp [stdEntry, hsv], by simp [stdEntry, hsv]⟩
  · intro h2
    rw [hlab] at h2
    have hge : ¬(catVals df g).length < 2 := by omega
    have hsv : (mkCatRow df g).svar =
        some (((catVals df g).map (fun x => (x - meanQ (catVals df g)) ^ 2)).sum /
          (((catVals df g).length : ℚ) - 1)) := by
      simp only [mkCatRow, svarQ, if_neg hge]
    refine ⟨_, hsv, ?_, by simp [stdEntry, hsv]⟩
    rw [hlab, ← hlen]
    have hne : ((catVals df g).length : ℚ) - 1 ≠ 0 := by
      have : (2 : ℚ) ≤ ((catVals df g).length : ℚ) := by
        exact_mod_cast by omega
      linarith
    field_simp

/-- Witness for C8 at the spec fixture, whose `rural` category has exactly
one row. -/
theorem C8_witness :
    (mkCatRow dfFix "rural") ∈ popGroupTable dfFix ∧
    countCat dfFix (mkCatRow dfFix "rural").label = 1 ∧
    (mkCatRow dfFix "rural").svar = none := by
  have hmem : (mkCatRow dfFix "rural") ∈ popGroupTable dfFix := by
    apply (List.mem_insertionSort meanGe).2
    apply List.mem_map_of_mem
    apply (List.mem_insertionSort (· ≤ ·)).2
    decide
  have hcount : countCat dfFix (mkCatRow dfFix "rural").label = 1 := by decide
  exact ⟨hmem, hcount, ((C8_sample_std dfFix _ hmem).1 hcount).1⟩

/-- Claim C5: the per-category summary is (a permutation of) one
aggregation row per distinct `pop_group`, sorted by mean descending, and
categories with equal means appear in ascending label order (`groupby`
produces the keys ascending and the descending sort keeps equal keys in
their previous relative order). -/
theorem C5_category_table_order (df : List Row) (_hne : df ≠ []) :
    (popGroupTable df).Perm (((df.map (·.pop_group)).dedup).map (mkCatRow df)) ∧
    (popGroupTable df).Pairwise (fun a b => b.mean ≤ a.mean) ∧
    (popGroupTable df).Pairwise (fun a b => a.mean = b.mean → a.label < b.label) := by
  refine ⟨?_, ?_, ?_⟩
  · exact (List.perm_insertionSort meanGe _).trans
      ((List.perm_insertionSort (· ≤ ·) _).map (mkCatRow df))
  · exact List.sorted_insertionSort meanGe _
  · have hnodup : (popLabels df).Nodup :=
      ((List.perm_insertionSort (· ≤ ·) _).nodup_iff).2 ((df.map (·.pop_group)).nodup_dedup)
    have hsorted : (popLabels df).Sorted (· ≤ ·) :=
      List.sorted_insertionSort (· ≤ ·) _
    have hlt : (popLabels df).Sorted (· < ·) := hsorted.lt_of_le hnodup
    have hpre : ((popLabels df).map (mkCatRow df)).Pairwise
        (fun a b => a.mean = b.mean → a.label < b.label) := by
      rw [List.pairwise_map]
      refine List.Pairwise.imp ?_ hlt
      intro a b hab _
      exact hab
    exact pairwiseInsertionSort
      (fun a b hab => fun hmeans => absurd (le_of_eq hmeans) hab) hpre

/-- Witness for C5 at the spec fixture. -/
theorem C5_witness :
    dfFix ≠ [] ∧ (popGroupTable dfFix).Pairwise (fun a b => b.mean ≤ a.mean) :=
  ⟨by decide, (C5_category_table_order dfFix (by decide)).2.1⟩

/-- The first/last observation of a month-sorted nonempty row list:
`growthOf` computes `((last - first) / first) * 100` where `first`/`last`
are observations at the group's minimal/maximal month. -/
theorem growthOf_spec {rows : List Row} (hne : rows ≠ []) :
    ∃ rf ∈ rows, ∃ rl ∈ rows,
      (∀ r ∈ rows, rf.month ≤ r.month) ∧ (∀ r ∈ rows, r.month ≤ rl.month) ∧
      growthOf rows = ((rl.avg - rf.avg) / rf.avg) * 100 := by
  cases h : sortByMonth rows with
  | nil =>
    exfalso
    have hlen : (sortByMonth rows).length = rows.length :=
      List.length_insertionSort monthLe rows
    rw [h] at hlen
    exact hne (List.length_eq_zero.1 hlen.symm)
  | cons r0 rs =>
    have hsorted : (r0 :: rs).Sorted monthLe := by
      rw [← h]; exact List.sorted_insertionSort monthLe rows
    have hperm : (r0 :: rs).Perm rows := by
      rw [← h]; exact List.perm_insertionSort monthLe rows
    have hlast_mem : (r0 :: rs).getLast (List.cons_ne_nil r0 rs) ∈ rows :=
      hperm.subset (List.getLast_mem (List.cons_ne_nil r0 rs))
    refine ⟨r0, hperm.subset (List.mem_cons_self r0 rs),
            (r0 :: rs).getLast (List.cons_ne_nil r0 rs), hlast_mem, ?_, ?_, ?_⟩
    · intro r hr
      rcases List.mem_cons.1 (hperm.mem_iff.2 hr) with rfl | hr'
      · exact le_refl _
      · exact List.rel_of_sorted_cons hsorted r hr'
    · intro r hr
      exact pairwiseRelGetLast (R := monthLe) (fun a => Nat.le_refl a.month)
        (List.cons_ne_nil r0 rs) hsorted r (hperm.mem_iff.2 hr)
    · simp only [growthOf, h]

/-- The state labels of the filtered table are exactly the states with at
least two observations that occur in the table. -/
theorem mem_stateLabels_valid {df : List Row} {s : String} :
    s ∈ stateLabels (validDf df) ↔ 2 ≤ countState df s ∧ ∃ r ∈ df, r.state = s := by
  constructor
  · intro h
    rcases List.mem_map.1 (List.mem_dedup.1 ((List.mem_insertionSort _).1 h)) with
      ⟨r, hr, hrs⟩
    rcases List.mem_filter.1 hr with ⟨hrdf, hpred⟩
    have h2 : 2 ≤ countState df r.state := of_decide_eq_true hpred
    exact ⟨hrs ▸ h2, ⟨r, hrdf, hrs⟩⟩
  · rintro ⟨h2, r, hr, hrs⟩
    apply (List.mem_insertionSort _).2
    apply List.mem_dedup.2
    apply List.mem_map.2
    refine ⟨r, ?_, hrs⟩
    apply List.mem_filter.2
    exact ⟨hr, decide_eq_true (by rw [hrs]; exact h2)⟩

/-- For a state with at least two observations, filtering out
low-observation states first does not change the state's rows. -/
theorem stateRows_valid_eq {df : List Row} {s : String} (h2 : 2 ≤ countState df s) :
    stateRows (validDf df) s = stateRows df s := by
  unfold stateRows validDf
  rw [List.filter_filter]
  apply List.filter_congr
  intro r hr
  cases hq : (r.state == s) with
  | true =>
    have hrs : r.state = s := eq_of_beq hq
    simp [hq, hrs, h2]
  | false => simp [hq]

/-- Claim C1: the most-improved-state computation restricts to states with
at least two observations; each such state's growth is
`(last − first) / first × 100` over that state's own earliest/latest
observations; the selected state is a qualifying state whose growth bounds
every qualifying state's growth; with no qualifying state the sentinel
`("N/A", 0)` is returned; and (within the selection branch) a state with
exactly one observation is never the selected state.  The hypothesis that
no `avg` is zero marks the regime in which exact rational division agrees
with the source's float division (a zero earliest value would give the
float `inf`/`nan` there). -/
theorem C1_most_improved (df : List Row) (_hne : df ≠ [])
    (_hz : ∀ r ∈ df, r.avg ≠ 0) :
    (∀ s : String, 2 ≤ countState df s →
      ∃ rf ∈ stateRows df s, ∃ rl ∈ stateRows df s,
        (∀ r ∈ stateRows df s, rf.month ≤ r.month) ∧
        (∀ r ∈ stateRows df s, r.month ≤ rl.month) ∧
        growthOf (stateRows df s) = ((rl.avg - rf.avg) / rf.avg) * 100) ∧
    (validDf df = [] → mostImprovedState df = ("N/A", 0)) ∧
    (validDf df ≠ [] →
      2 ≤ countState df (mostImprovedState df).1 ∧
      (mostImprovedState df).2 = growthOf (stateRows df (mostImprovedState df).1) ∧
      (∀ s : String, 2 ≤ countState df s → (∃ r ∈ df, r.state = s) →
        growthOf (stateRows df s) ≤ (mostImprovedState df).2) ∧
      (∀ s : String, countState df s = 1 → (mostImprovedState df).1 ≠ s)) := by
  refine ⟨?_, ?_, ?_⟩
  · intro s h2
    apply growthOf_spec
    have hpos : 0 < (stateRows df s).length := lt_of_lt_of_le (by norm_num) h2
    exact List.ne_nil_of_length_pos hpos
  · intro hv
    have hlab : stateLabels (validDf df) = [] := by
      rw [hv]; rfl
    simp [mostImprovedState, stateGrowth, hlab]
  · intro hv
    obtain ⟨r0, hr0⟩ := List.exists_mem_of_ne_nil _ hv
    have hs0 : r0.state ∈ stateLabels (validDf df) := by
      apply (List.mem_insertionSort _).2
      exact List.mem_dedup.2 (List.mem_map_of_mem _ hr0)
    have hgne : stateGrowth df ≠ [] := by
      intro hEmpty
      have hmem : (r0.state, growthOf (stateRows (validDf df) r0.state)) ∈ stateGrowth df :=
        List.mem_map_of_mem _ hs0
      rw [hEmpty] at hmem
      cases hmem
    cases hm : List.argmax (fun p : String × ℚ => p.2) (stateGrowth df) with
    | none => exact absurd (List.argmax_eq_none.1 hm) hgne
    | some p =>
      have hMI : mostImprovedState df = p := by
        simp [mostImprovedState, hm]
      have hp := List.argmax_eq_some_iff.1 hm
      rcases List.mem_map.1 hp.1 with ⟨s0, hs0mem, hps⟩
      have hq := mem_stateLabels_valid.1 hs0mem
      have hp1 : p.1 = s0 := by rw [← hps]
      have hp2 : p.2 = growthOf (stateRows (validDf df) s0) := by rw [← hps]
      refine ⟨?_, ?_, ?_, ?_⟩
      · rw [hMI, hp1]
        exact hq.1
      · rw [hMI, hp1, hp2, stateRows_valid_eq hq.1]
      · intro s h2 hex
        have hsmem : s ∈ stateLabels (validDf df) := mem_stateLabels_valid.2 ⟨h2, hex⟩
        have hpair : (s, growthOf (stateRows (validDf df) s)) ∈ stateGrowth df :=
          List.mem_map_of_mem _ hsmem
        have hle := hp.2.1 _ hpair
        rw [hMI]
        calc growthOf (stateRows df s)
            = growthOf (stateRows (validDf df) s) := by rw [stateRows_valid_eq h2]
          _ ≤ p.2 := hle
      · intro s h1
        rw [hMI, hp1]
        intro heq
        rw [heq] at hq
        omega

/-- Witness for C1 at the spec fixture (California has two observations,
Texas one; California is selected). -/
theorem C1_witness : 2 ≤ countState dfFix (mostImprovedState dfFix).1 :=
  ((C1_most_improved dfFix (by decide) (by decide)).2.2 (by decide)).1
